import Mathlib

/-
Shallow embedding of the quote-fetching core of the stocks-hero-bot
repository (Go): the Yahoo session manager, the chart fetch client, the
TTL price cache, the batch fetch coordinator and the notification
scheduler.  Machine floats (float64 prices) are embedded as rationals,
wall-clock instants as natural numbers (seconds), HTTP traffic as
explicit oracles, and every fallible Go function as an Except value.
-/

namespace StocksHero

/-- Quote holds the latest price data for a symbol (finance.Quote). -/
structure Quote where
  symbol : String
  price : ℚ
  currency : String
deriving DecidableEq, Repr

/-- yahooSession: the cookie and crumb required by the Yahoo API. -/
structure Session where
  cookie : String
  crumb : String
  expiresAt : Nat
deriving DecidableEq, Repr

/-- sessionTTL = 30 minutes, in seconds. -/
def sessionTTL : Nat := 1800

/-- The meta object of one chart result
(chart.result[i].meta in the upstream JSON). -/
structure ChartMeta where
  symbol : String
  currency : String
  regularMarketPrice : ℚ
  chartPreviousClose : ℚ
deriving DecidableEq, Repr

/-- A decoded chart response body: the result array and the optional
error object (its description).  none at the outer level stands for a
body that fails JSON unmarshalling. -/
structure ChartPayload where
  result : List ChartMeta
  error : Option String
deriving DecidableEq, Repr

instance {ε α : Type} [DecidableEq ε] [DecidableEq α] :
    DecidableEq (Except ε α) := fun a b =>
  match a, b with
  | Except.ok x, Except.ok y =>
    if h : x = y then isTrue (by rw [h]) else isFalse (by simp [h])
  | Except.error x, Except.error y =>
    if h : x = y then isTrue (by rw [h]) else isFalse (by simp [h])
  | Except.ok _, Except.error _ => isFalse (by simp)
  | Except.error _, Except.ok _ => isFalse (by simp)

def msgParseChart : String := "parse chart response"

def msgYahooError : String := "yahoo error: "

def msgNoChartResult : String := "no chart result for "

def msgNoPriceData : String := "no price data for "

/-- parseChartResponse from internal/finance/yahoo.go: reject an upstream
error object, reject an empty result list, take the first meta, prefer
regularMarketPrice, fall back to chartPreviousClose when it is zero, and
fail when both are zero. -/
def parseChartResponse (body : Option ChartPayload) (symbol : String) :
    Except String Quote :=
  match body with
  | none => Except.error msgParseChart
  | some payload =>
    match payload.error with
    | some desc => Except.error (msgYahooError ++ desc)
    | none =>
      match payload.result with
      | [] => Except.error (msgNoChartResult ++ symbol)
      | meta :: _ =>
        let price := if meta.regularMarketPrice = 0 then
            meta.chartPreviousClose
          else meta.regularMarketPrice
        if price = 0 then Except.error (msgNoPriceData ++ symbol)
        else Except.ok ⟨meta.symbol, price, meta.currency⟩

/-- One Set-Cookie pair of the consent response (name, value);
extractCookies joins them as in the Go helper. -/
structure ConsentResponse where
  cookies : List (String × String)
deriving DecidableEq, Repr

def cookieSep : String := "; "

def cookieEq : String := "="

/-- extractCookies from yahoo.go: join all Set-Cookie name=value pairs
into one Cookie header string. -/
def extractCookies (resp : ConsentResponse) : String :=
  String.intercalate cookieSep
    (resp.cookies.map (fun c => c.1 ++ cookieEq ++ c.2))

/-- The two HTTP round trips of fetchNewSession, as an oracle indexed by
how many session fetches have happened so far: the consent response and
the raw crumb body. -/
def SessionEnv : Type := Nat → ConsentResponse × String

/-- Unicode whitespace as strings.TrimSpace sees it (the ASCII cases
suffice for the crumb bodies being modelled). -/
def isSpaceChar (c : Char) : Bool :=
  c = ' ' || c = '\t' || c = '\n' || c = '\r'

/-- strings.TrimSpace from the Go standard library, kernel-reducible
(structural recursion over the character list). -/
def trimSpace (s : String) : String :=
  ⟨(((s.data.dropWhile isSpaceChar).reverse.dropWhile
      isSpaceChar).reverse : List Char)⟩

def msgNoCookie : String := "no cookie returned from Yahoo consent endpoint"

def msgBadCrumb : String := "Yahoo returned invalid crumb: "

def nullLiteral : String := "null"

def emptyString : String := ""

/-- fetchNewSession from yahoo.go: step 1 captures the consent cookies
(failing when none came back), step 2 trims the crumb body (failing on
an empty or literal null crumb), and the session expires sessionTTL
after now. -/
def fetchNewSession (env : SessionEnv) (n : Nat) (now : Nat) :
    Except String Session :=
  if extractCookies (env n).1 = emptyString then Except.error msgNoCookie
  else if trimSpace (env n).2 = emptyString ∨
      trimSpace (env n).2 = nullLiteral then
    Except.error (msgBadCrumb ++ trimSpace (env n).2)
  else
    Except.ok
      ⟨extractCookies (env n).1, trimSpace (env n).2, now + sessionTTL⟩

/-- One authenticated chart request as put on the wire: the symbol in
the URL, the Cookie header and the crumb query parameter. -/
structure ChartRequest where
  symbol : String
  cookie : String
  crumb : String
deriving DecidableEq, Repr

/-- The mutable fields of YahooClient (the cached session), extended
with two observers: how many times fetchNewSession ran and the ordered
log of outbound chart requests. -/
structure ClientState where
  session : Option Session
  sessionFetches : Nat
  requests : List ChartRequest
deriving DecidableEq, Repr

/-- Refresh path of getSession: run fetchNewSession; cache the new
session on success, keep the old cached value on failure. -/
def refreshSession (env : SessionEnv) (now : Nat) (st : ClientState) :
    Except String Session × ClientState :=
  match fetchNewSession env st.sessionFetches now with
  | Except.ok s =>
    (Except.ok s,
     { st with session := some s, sessionFetches := st.sessionFetches + 1 })
  | Except.error e =>
    (Except.error e, { st with sessionFetches := st.sessionFetches + 1 })

/-- getSession from yahoo.go: return the cached session while it has not
expired, otherwise fetch a new one under the same lock. -/
def getSession (env : SessionEnv) (now : Nat) (st : ClientState) :
    Except String Session × ClientState :=
  match st.session with
  | some s =>
    if now < s.expiresAt then (Except.ok s, st)
    else refreshSession env now st
  | none => refreshSession env now st

/-- invalidateSession from yahoo.go: drop the cached session. -/
def invalidateSession (st : ClientState) : ClientState :=
  { st with session := none }

/-- An upstream chart endpoint response: HTTP status and decoded body. -/
structure ChartResponse where
  status : Nat
  body : Option ChartPayload
deriving DecidableEq, Repr

/-- The chart endpoint as an oracle from the wire request to the
response. -/
def ChartUpstream : Type := ChartRequest → ChartResponse

def msgAuthError : String := "auth error: HTTP "

def msgHTTP : String := "HTTP "

def msgFor : String := " for "

/-- fetchOne from yahoo.go: issue one chart request carrying the
session cookie and crumb (the request is appended to the log), classify
401/403 as an auth error, any other non-200 as a plain HTTP error, and
parse the body otherwise. -/
def fetchOne (up : ChartUpstream) (symbol : String) (sess : Session)
    (st : ClientState) : Except String Quote × ClientState :=
  let req : ChartRequest := ⟨symbol, sess.cookie, sess.crumb⟩
  let st1 := { st with requests := st.requests ++ [req] }
  let resp := up req
  if resp.status = 401 ∨ resp.status = 403 then
    (Except.error (msgAuthError ++ toString resp.status), st1)
  else if resp.status ≠ 200 then
    (Except.error (msgHTTP ++ toString resp.status ++ msgFor ++ symbol), st1)
  else (parseChartResponse resp.body symbol, st1)

/-- pat matches at the head of s. -/
def matchesAt : List Char → List Char → Bool
  | [], _ => true
  | _ :: _, [] => false
  | a :: as, b :: bs => a = b && matchesAt as bs

/-- pat occurs somewhere inside s. -/
def hasSub (pat : List Char) : List Char → Bool
  | [] => matchesAt pat []
  | b :: bs => matchesAt pat (b :: bs) || hasSub pat bs

/-- strings.Contains from the Go standard library. -/
def containsSubstr (s pat : String) : Bool :=
  hasSub pat.toList s.toList

def authNeedle : String := "auth error"

def needle401 : String := "HTTP 401"

def needle403 : String := "HTTP 403"

/-- isAuthError from yahoo.go: substring match on the error text. -/
def isAuthError (e : String) : Bool :=
  containsSubstr e authNeedle || containsSubstr e needle401 ||
    containsSubstr e needle403

def msgRefreshSession : String := "refresh yahoo session: "

def msgFetch : String := "fetch "

def msgColon : String := ": "

/-- The loop body of fetchBatch for one symbol: try fetchOne with the
current session; on an auth-classified error invalidate the session,
acquire a fresh one (failure there aborts with a refresh error) and
retry exactly once; any remaining error aborts with a fetch error.  On
success the possibly refreshed session is handed to the next symbol. -/
def fetchSym (env : SessionEnv) (up : ChartUpstream) (now : Nat)
    (sym : String) (sess : Session) (st : ClientState) :
    Except String (Quote × Session) × ClientState :=
  match fetchOne up sym sess st with
  | (Except.ok q, st1) => (Except.ok (q, sess), st1)
  | (Except.error e, st1) =>
    if isAuthError e then
      match getSession env now (invalidateSession st1) with
      | (Except.error e2, st2) =>
        (Except.error (msgRefreshSession ++ e2), st2)
      | (Except.ok sess2, st2) =>
        match fetchOne up sym sess2 st2 with
        | (Except.ok q, st3) => (Except.ok (q, sess2), st3)
        | (Except.error e3, st3) =>
          (Except.error (msgFetch ++ sym ++ msgColon ++ e3), st3)
    else (Except.error (msgFetch ++ sym ++ msgColon ++ e), st1)

/-- The symbol loop of fetchBatch: accumulate per-symbol quotes in
order; the first failing symbol stops the loop and returns the quotes
collected so far together with the error. -/
def fetchLoop (env : SessionEnv) (up : ChartUpstream) (now : Nat) :
    List String → Session → List (String × Quote) → ClientState →
    List (String × Quote) × Option String × ClientState
  | [], _, acc, st => (acc, none, st)
  | sym :: rest, sess, acc, st =>
    match fetchSym env up now sym sess st with
    | (Except.ok (q, sess2), st1) =>
      fetchLoop env up now rest sess2 (acc ++ [(sym, q)]) st1
    | (Except.error e, st1) => (acc, some e, st1)

def msgGetSession : String := "get yahoo session: "

/-- fetchBatch from yahoo.go: acquire a session, then fetch the symbols
one by one through fetchLoop. -/
def fetchBatch (env : SessionEnv) (up : ChartUpstream) (now : Nat)
    (symbols : List String) (st : ClientState) :
    List (String × Quote) × Option String × ClientState :=
  match getSession env now st with
  | (Except.error e, st1) => ([], some (msgGetSession ++ e), st1)
  | (Except.ok sess, st1) => fetchLoop env up now symbols sess [] st1

/-- cachedQuote from internal/finance/cache.go. -/
structure CachedQuote where
  quote : Quote
  fetchedAt : Nat
deriving DecidableEq, Repr

/-- PriceCache from internal/finance/cache.go; the Go map is embedded
as an association list whose update overwrites in place. -/
structure PriceCache where
  items : List (String × CachedQuote)
  ttl : Nat
deriving DecidableEq, Repr

def cacheLookup (items : List (String × CachedQuote)) (sym : String) :
    Option CachedQuote :=
  (items.find? (fun p => p.1 = sym)).map Prod.snd

/-- The freshness test of cache.go reads: a cached entry is served when
it exists and now - fetchedAt <= ttl. -/
def freshAt (pc : PriceCache) (now : Nat) (sym : String) : Option Quote :=
  match cacheLookup pc.items sym with
  | some item =>
    if now - item.fetchedAt ≤ pc.ttl then some item.quote else none
  | none => none

/-- GetMulti from cache.go: split the requested symbols into the fresh
entries (the found map, embedded as a key/value list; duplicate
requested symbols yield duplicate identical entries) and the list of
symbols that need fetching. -/
def GetMulti (pc : PriceCache) (now : Nat) (symbols : List String) :
    List (String × Quote) × List String :=
  (symbols.filterMap (fun s => (freshAt pc now s).map (fun q => (s, q))),
   symbols.filter (fun s => (freshAt pc now s).isNone))

/-- In-place overwrite of one cache slot (the Go map assignment):
replace the slot holding the key, append when absent. -/
def setItem : List (String × CachedQuote) → String → CachedQuote →
    List (String × CachedQuote)
  | [], sym, cq => [(sym, cq)]
  | p :: rest, sym, cq =>
    if p.1 = sym then (sym, cq) :: rest else p :: setItem rest sym cq

/-- SetMulti from cache.go: store every quote, stamped with one shared
current time. -/
def SetMulti (pc : PriceCache) (now : Nat)
    (quotes : List (String × Quote)) : PriceCache :=
  { pc with
    items := quotes.foldl (fun items sq => setItem items sq.1 ⟨sq.2, now⟩)
      pc.items }

/-- GetQuotes from yahoo.go: serve fresh cache entries, fetch the rest
through fetchBatch; on a batch error return only the cache hits with
the error (the fetched quotes are dropped and the cache untouched); on
success write the fetched quotes to the cache and merge them into the
result. -/
def GetQuotes (env : SessionEnv) (up : ChartUpstream) (now : Nat)
    (symbols : List String) (cache : PriceCache) (st : ClientState) :
    List (String × Quote) × Option String × PriceCache × ClientState :=
  if symbols = [] then ([], none, cache, st)
  else if (GetMulti cache now symbols).2 = [] then
    ((GetMulti cache now symbols).1, none, cache, st)
  else
    match fetchBatch env up now (GetMulti cache now symbols).2 st with
    | (_, some e, st1) =>
      ((GetMulti cache now symbols).1, some e, cache, st1)
    | (fetched, none, st1) =>
      ((GetMulti cache now symbols).1 ++ fetched, none,
       SetMulti cache now fetched, st1)

/-- Result-map lookup (the Go map read quotes[sym]). -/
def lookupQuote (quotes : List (String × Quote)) (sym : String) :
    Option Quote :=
  (quotes.find? (fun p => p.1 = sym)).map Prod.snd

/- --- configuration (cmd/bot/main.go) --- -/

/-- config from cmd/bot/main.go: the only fields loadConfig produces. -/
structure BotConfig where
  telegramToken : String
  dbPath : String
  cacheTTL : Nat
  notifyInterval : Nat
deriving DecidableEq, Repr

/-- The process environment as os.Getenv sees it (unset reads as the
empty string). -/
def Env : Type := String → String

/-- getEnv from cmd/bot/main.go. -/
def getEnv (env : Env) (key fallback : String) : String :=
  if env key ≠ emptyString then env key else fallback

def keyCacheTTL : String := "CACHE_TTL"

def keyNotifyInterval : String := "NOTIFY_INTERVAL"

def keyTelegramToken : String := "TELEGRAM_BOT_TOKEN"

def keyDBPath : String := "DB_PATH"

def keyRateLimit : String := "RATE_LIMIT_PER_SEC"

def defaultCacheTTL : String := "15m"

def defaultNotifyInterval : String := "1h"

def defaultDBPath : String := "./portfolio.db"

/-- loadConfig from cmd/bot/main.go; time.ParseDuration is passed as an
oracle returning seconds (none models a parse error, which falls back
to the hard-coded default: 15 minutes and 1 hour).  mustEnv aborts the
process when the token is unset, embedded as none. -/
def loadConfig (parseDuration : String → Option Nat) (env : Env) :
    Option BotConfig :=
  let cacheTTL :=
    (parseDuration (getEnv env keyCacheTTL defaultCacheTTL)).getD 900
  let notifyInterval :=
    (parseDuration
      (getEnv env keyNotifyInterval defaultNotifyInterval)).getD 3600
  if env keyTelegramToken = emptyString then none
  else some
    ⟨env keyTelegramToken, getEnv env keyDBPath defaultDBPath,
     cacheTTL, notifyInterval⟩

/- --- portfolio service and scheduler
       (internal/portfolio/service.go, internal/scheduler/scheduler.go,
        internal/db/repository.go) --- -/

/-- Holding from internal/db: one portfolio row. -/
structure Holding where
  chatID : Int
  symbol : String
  name : String
  shares : ℚ
deriving DecidableEq, Repr

/-- The holdings table; the repository queries below read it. -/
def HoldingsDB : Type := List Holding

/-- GetDistinctSymbols from repository.go (SELECT DISTINCT symbol); the
SQL ORDER BY only fixes an order, immaterial to the claims. -/
def GetDistinctSymbols (db : HoldingsDB) : List String :=
  (db.map (fun h => h.symbol)).eraseDups

/-- GetAllActiveUsers from repository.go: chat ids with at least one
holding. -/
def GetAllActiveUsers (db : HoldingsDB) : List Int :=
  (db.map (fun h => h.chatID)).eraseDups

/-- GetHoldings from repository.go: the rows of one user. -/
def GetHoldings (db : HoldingsDB) (chatID : Int) : List Holding :=
  db.filter (fun h => h.chatID = chatID)

/-- HoldingLine from internal/portfolio/service.go. -/
structure HoldingLine where
  symbol : String
  name : String
  shares : ℚ
  price : ℚ
  value : ℚ
deriving DecidableEq, Repr

/-- BalanceReport from internal/portfolio/service.go. -/
structure BalanceReport where
  holdings : List HoldingLine
  totalUSD : ℚ
deriving DecidableEq, Repr

def msgGetQuotes : String := "get quotes: "

def msgNoQuoteData : String := "quotes returned no data"

/-- ComputeBalance from service.go: load the holdings (none yields a
nil report), fetch quotes for their symbols, keep the lines whose
symbol got a quote, and fail when every line is missing. -/
def ComputeBalance (env : SessionEnv) (up : ChartUpstream) (now : Nat)
    (db : HoldingsDB) (cache : PriceCache) (st : ClientState)
    (chatID : Int) :
    Except String (Option BalanceReport) × PriceCache × ClientState :=
  let holdings := GetHoldings db chatID
  if holdings = [] then (Except.ok none, cache, st)
  else
    let symbols := holdings.map (fun h => h.symbol)
    match GetQuotes env up now symbols cache st with
    | (_, some e, cache1, st1) =>
      (Except.error (msgGetQuotes ++ e), cache1, st1)
    | (quotes, none, cache1, st1) =>
      let lines := holdings.filterMap (fun h =>
        match lookupQuote quotes h.symbol with
        | none => none
        | some q =>
          some (⟨h.symbol, h.name, h.shares, q.price,
                 h.shares * q.price⟩ : HoldingLine))
      if lines = [] then (Except.error msgNoQuoteData, cache1, st1)
      else
        (Except.ok (some ⟨lines, (lines.map (fun l => l.value)).sum⟩),
         cache1, st1)

/-- Observable events of one scheduler tick. -/
inductive SchedEvent where
  | prewarm (symbols : List String) (failed : Bool)
  | notify (chatID : Int)
deriving DecidableEq, Repr

/-- The fanout loop of notifyAll (scheduler.go): per user, recompute the
balance; an error or an empty report skips that user only. -/
def fanout (env : SessionEnv) (up : ChartUpstream) (now : Nat)
    (db : HoldingsDB) :
    List Int → PriceCache → ClientState →
    List SchedEvent × PriceCache × ClientState
  | [], cache, st => ([], cache, st)
  | u :: rest, cache, st =>
    match ComputeBalance env up now db cache st u with
    | (Except.error _, cache1, st1) =>
      fanout env up now db rest cache1 st1
    | (Except.ok none, cache1, st1) =>
      fanout env up now db rest cache1 st1
    | (Except.ok (some r), cache1, st1) =>
      if r.holdings = [] then fanout env up now db rest cache1 st1
      else
        let out := fanout env up now db rest cache1 st1
        (SchedEvent.notify u :: out.1, out.2)

/-- notifyAll from scheduler.go: gather the distinct symbols (an empty
set ends the tick), prewarm the cache with one GetQuotes call (a
failure is logged and the tick continues), then fan out over all active
users. -/
def notifyAll (env : SessionEnv) (up : ChartUpstream) (now : Nat)
    (db : HoldingsDB) (cache : PriceCache) (st : ClientState) :
    List SchedEvent × PriceCache × ClientState :=
  let symbols := GetDistinctSymbols db
  if symbols = [] then ([], cache, st)
  else
    match GetQuotes env up now symbols cache st with
    | (_, e, cache1, st1) =>
      let out := fanout env up now db (GetAllActiveUsers db) cache1 st1
      (SchedEvent.prewarm symbols e.isSome :: out.1, out.2)

/- --- two concurrent GetQuotes callers ---

GetQuotes holds no lock between its GetMulti read and its fetchBatch /
SetMulti tail, so two callers interleave at that boundary.  Each caller
is a small state machine; a schedule picks which caller steps next.
Every coarse schedule here corresponds to a real interleaving of the Go
code (the cache read happens under RLock, the fetch and write-back
outside it). -/

/-- The phase a GetQuotes caller is in. -/
inductive CallerPhase where
  | start (symbols : List String)
  | pending (found : List (String × Quote)) (missing : List String)
  | finished (result : List (String × Quote)) (err : Option String)
deriving DecidableEq, Repr

/-- The state shared by all callers: the price cache and the client
(session plus request log). -/
structure World where
  cache : PriceCache
  client : ClientState
deriving DecidableEq, Repr

/-- One atomic step of a GetQuotes caller: first the GetMulti read,
then the fetchBatch plus write-back tail. -/
def stepCaller (env : SessionEnv) (up : ChartUpstream) (now : Nat)
    (w : World) : CallerPhase → World × CallerPhase
  | CallerPhase.start symbols =>
    if symbols = [] then (w, CallerPhase.finished [] none)
    else
      let fm := GetMulti w.cache now symbols
      if fm.2 = [] then (w, CallerPhase.finished fm.1 none)
      else (w, CallerPhase.pending fm.1 fm.2)
  | CallerPhase.pending found missing =>
    match fetchBatch env up now missing w.client with
    | (_, some e, st1) =>
      ({ w with client := st1 }, CallerPhase.finished found (some e))
    | (fetched, none, st1) =>
      (⟨SetMulti w.cache now fetched, st1⟩,
       CallerPhase.finished (found ++ fetched) none)
  | CallerPhase.finished r e => (w, CallerPhase.finished r e)

/-- Run a schedule over two callers: false steps caller zero, true
steps caller one. -/
def runSchedule (env : SessionEnv) (up : ChartUpstream) (now : Nat) :
    List Bool → World → CallerPhase × CallerPhase →
    World × CallerPhase × CallerPhase
  | [], w, cs => (w, cs)
  | pick :: rest, w, cs =>
    if pick then
      let s := stepCaller env up now w cs.2
      runSchedule env up now rest s.1 (cs.1, s.2)
    else
      let s := stepCaller env up now w cs.1
      runSchedule env up now rest s.1 (s.2, cs.2)

/- --- concrete fixtures for witnesses and counterexamples --- -/

def symA : String := "AAPL"

def symB : String := "MSFT"

def symC : String := "TSLA"

def symD : String := "NVDA"

def symX : String := "GOOG"

def symY : String := "AMZN"

def usd : String := "USD"

def cookieName : String := "sessioncookie"

/-- A session environment that mints a distinct cookie and crumb on
every fetch (call n yields cookie sessioncookie=n and crumb n). -/
def sessEnvSeq : SessionEnv :=
  fun n => (⟨[(cookieName, toString n)]⟩, toString n)

/-- A chart body carrying one meta with the given live price. -/
def okBody (sym : String) (p : ℚ) : ChartPayload := ⟨[⟨sym, usd, p, 0⟩], none⟩

/-- Upstream that answers 200 with price 10 for every request. -/
def upAllOk : ChartUpstream := fun r => ⟨200, some (okBody r.symbol 10)⟩

/-- Upstream where only AAPL succeeds; everything else is HTTP 500. -/
def upOnlyA : ChartUpstream :=
  fun r => if r.symbol = symA then ⟨200, some (okBody symA 10)⟩
    else ⟨500, none⟩

/-- Upstream where only TSLA succeeds; everything else is HTTP 500. -/
def upOnlyC : ChartUpstream :=
  fun r => if r.symbol = symC then ⟨200, some (okBody symC 20)⟩
    else ⟨500, none⟩

/-- Upstream where AMZN succeeds and every other symbol is HTTP 401
under every session. -/
def upAuthFail : ChartUpstream :=
  fun r => if r.symbol = symY then ⟨200, some (okBody symY 7)⟩
    else ⟨401, none⟩

def emptyCache : PriceCache := ⟨[], 900⟩

def initialState : ClientState := ⟨none, 0, []⟩

/- --- cache lemmas --- -/

theorem cacheLookup_cons (p : String × CachedQuote)
    (rest : List (String × CachedQuote)) (s : String) :
    cacheLookup (p :: rest) s =
      if p.1 = s then some p.2 else cacheLookup rest s := by
  by_cases h : p.1 = s <;> simp [cacheLookup, List.find?, h]

theorem setItem_lookup (items : List (String × CachedQuote))
    (sym : String) (cq : CachedQuote) (s : String) :
    cacheLookup (setItem items sym cq) s =
      if s = sym then some cq else cacheLookup items s := by
  induction items with
  | nil =>
    rw [show setItem [] sym cq = [(sym, cq)] from rfl, cacheLookup_cons]
    by_cases h : s = sym
    · rw [if_pos h, if_pos (h.symm)]
    · rw [if_neg h, if_neg (fun hh => h hh.symm)]
  | cons p rest ih =>
    by_cases hp : p.1 = sym
    · rw [show setItem (p :: rest) sym cq =
          (sym, cq) :: rest from by simp [setItem, hp], cacheLookup_cons,
        cacheLookup_cons]
      by_cases hs : s = sym
      · rw [if_pos hs, if_pos hs.symm]
      · rw [if_neg hs, if_neg (fun hh => hs hh.symm),
          if_neg (fun hh => hs (hp ▸ hh).symm)]
    · rw [show setItem (p :: rest) sym cq =
          p :: setItem rest sym cq from by simp [setItem, hp],
        cacheLookup_cons, cacheLookup_cons, ih]
      by_cases hps : p.1 = s
      · have hs : ¬ s = sym := fun hh => hp (hps.trans hh)
        rw [if_pos hps, if_pos hps, if_neg hs]
      · rw [if_neg hps, if_neg hps]

theorem foldl_setItem_lookup_not_mem (now : Nat) :
    ∀ (quotes : List (String × Quote))
      (items : List (String × CachedQuote)) (s : String),
      (∀ q, (s, q) ∉ quotes) →
      cacheLookup
        (quotes.foldl
          (fun its sq => setItem its sq.1 ⟨sq.2, now⟩) items) s =
        cacheLookup items s := by
  intro quotes
  induction quotes with
  | nil => intro items s _; rfl
  | cons kv rest ih =>
    intro items s hs
    have hk : s ≠ kv.1 := by
      intro h
      exact hs kv.2 (by rw [h]; exact List.mem_cons_self _ _)
    have hrest : ∀ q, (s, q) ∉ rest := fun q hq =>
      hs q (List.mem_cons_of_mem _ hq)
    simp only [List.foldl_cons]
    rw [ih _ s hrest, setItem_lookup, if_neg hk]

theorem foldl_setItem_lookup_mem (now : Nat) :
    ∀ (quotes : List (String × Quote))
      (items : List (String × CachedQuote)) (s : String) (q : Quote),
      (s, q) ∈ quotes →
      ∃ q2, (s, q2) ∈ quotes ∧
        cacheLookup
          (quotes.foldl
            (fun its sq => setItem its sq.1 ⟨sq.2, now⟩) items) s =
          some ⟨q2, now⟩ := by
  intro quotes
  induction quotes with
  | nil => intro items s q hq; cases hq
  | cons kv rest ih =>
    intro items s q hq
    by_cases hr : ∃ q3, (s, q3) ∈ rest
    · rcases hr with ⟨q3, hq3⟩
      rcases ih (setItem items kv.1 ⟨kv.2, now⟩) s q3 hq3 with
        ⟨q2, hq2, hl⟩
      exact ⟨q2, List.mem_cons_of_mem _ hq2, by simpa using hl⟩
    · have hrest : ∀ q3, (s, q3) ∉ rest := fun q3 hq3 => hr ⟨q3, hq3⟩
      have hhead : (s, q) = kv := by
        rcases List.mem_cons.mp hq with h | h
        · exact h
        · exact absurd h (hrest q)
      refine ⟨kv.2, by rw [← hhead]; exact List.mem_cons_self _ _, ?_⟩
      simp only [List.foldl_cons]
      rw [foldl_setItem_lookup_not_mem now rest _ s hrest,
        setItem_lookup, if_pos (by rw [← hhead])]

theorem SetMulti_lookup_mem (cache : PriceCache) (now : Nat)
    (quotes : List (String × Quote)) (s : String) (q : Quote)
    (h : (s, q) ∈ quotes) :
    ∃ q2, (s, q2) ∈ quotes ∧
      cacheLookup (SetMulti cache now quotes).items s = some ⟨q2, now⟩ :=
  foldl_setItem_lookup_mem now quotes cache.items s q h

theorem SetMulti_isSome (cache : PriceCache) (now : Nat)
    (quotes : List (String × Quote)) (s : String)
    (h : (cacheLookup cache.items s).isSome = true) :
    (cacheLookup (SetMulti cache now quotes).items s).isSome = true := by
  by_cases hm : ∃ q, (s, q) ∈ quotes
  · rcases hm with ⟨q, hq⟩
    rcases SetMulti_lookup_mem cache now quotes s q hq with ⟨q2, _, hl⟩
    rw [hl]; rfl
  · have hrest : ∀ q, (s, q) ∉ quotes := fun q hq => hm ⟨q, hq⟩
    unfold SetMulti
    rw [foldl_setItem_lookup_not_mem now quotes cache.items s hrest]
    exact h

/- --- GetMulti and result-map lemmas --- -/

theorem GetMulti_found_mem (pc : PriceCache) (now : Nat)
    (symbols : List String) (s : String) (q : Quote) :
    (s, q) ∈ (GetMulti pc now symbols).1 ↔
      s ∈ symbols ∧ freshAt pc now s = some q := by
  simp only [GetMulti, List.mem_filterMap, Option.map_eq_some']
  constructor
  · rintro ⟨a, ha, q2, hq2, heq⟩
    cases heq
    exact ⟨ha, hq2⟩
  · rintro ⟨hs, hq⟩
    exact ⟨s, hs, q, hq, rfl⟩

theorem GetMulti_missing_mem (pc : PriceCache) (now : Nat)
    (symbols : List String) (s : String) :
    s ∈ (GetMulti pc now symbols).2 ↔
      s ∈ symbols ∧ freshAt pc now s = none := by
  simp [GetMulti, List.mem_filter, Option.isNone_iff_eq_none]

theorem lookupQuote_cons (p : String × Quote)
    (rest : List (String × Quote)) (s : String) :
    lookupQuote (p :: rest) s =
      if p.1 = s then some p.2 else lookupQuote rest s := by
  by_cases h : p.1 = s <;> simp [lookupQuote, List.find?, h]

theorem lookupQuote_isSome_of_mem (l : List (String × Quote))
    (s : String) (q : Quote) (h : (s, q) ∈ l) :
    (lookupQuote l s).isSome = true := by
  induction l with
  | nil => cases h
  | cons p rest ih =>
    rw [lookupQuote_cons]
    by_cases hp : p.1 = s
    · rw [if_pos hp]; rfl
    · rw [if_neg hp]
      rcases List.mem_cons.mp h with h1 | h1
      · exact absurd (by rw [← h1]) hp
      · exact ih h1

theorem lookupQuote_append_left (l1 l2 : List (String × Quote))
    (s : String) (h : (lookupQuote l1 s).isSome = true) :
    lookupQuote (l1 ++ l2) s = lookupQuote l1 s := by
  unfold lookupQuote at *
  rw [List.find?_append]
  rcases hf : List.find? (fun p => p.1 = s) l1 with _ | v
  · rw [hf] at h; simp [lookupQuote] at h
  · rw [hf]; rfl

theorem lookupQuote_append_isSome (l1 l2 : List (String × Quote))
    (s : String)
    (h : (lookupQuote l1 s).isSome = true ∨
      (lookupQuote l2 s).isSome = true) :
    (lookupQuote (l1 ++ l2) s).isSome = true := by
  unfold lookupQuote at *
  rw [List.find?_append]
  rcases hf : List.find? (fun p => p.1 = s) l1 with _ | v
  · rcases h with h | h
    · rw [hf] at h; simp at h
    · rcases hg : List.find? (fun p => p.1 = s) l2 with _ | w
      · rw [hg] at h; simp at h
      · rw [hf, hg]; rfl
  · rw [hf]; rfl

/-- The first fresh hit for a symbol in GetMulti carries its cached
quote: the found list serves s with exactly freshAt s. -/
theorem GetMulti_found_lookup (pc : PriceCache) (now : Nat)
    (symbols : List String) (s : String) (q : Quote)
    (hf : freshAt pc now s = some q) (hs : s ∈ symbols) :
    lookupQuote (GetMulti pc now symbols).1 s = some q := by
  induction symbols with
  | nil => cases hs
  | cons a rest ih =>
    by_cases ha : a = s
    · subst ha
      have : (GetMulti pc now (a :: rest)).1 =
          (a, q) :: (GetMulti pc now rest).1 := by
        simp [GetMulti, List.filterMap_cons, hf]
      rw [this, lookupQuote_cons, if_pos rfl]
    · have hrest : s ∈ rest := by
        rcases List.mem_cons.mp hs with h | h
        · exact absurd h.symm ha
        · exact h
      rcases hfa : freshAt pc now a with _ | qa
      · have : (GetMulti pc now (a :: rest)).1 =
            (GetMulti pc now rest).1 := by
          simp [GetMulti, List.filterMap_cons, hfa]
        rw [this]; exact ih hrest
      · have : (GetMulti pc now (a :: rest)).1 =
            (a, qa) :: (GetMulti pc now rest).1 := by
          simp [GetMulti, List.filterMap_cons, hfa]
        rw [this, lookupQuote_cons, if_neg ha]
        exact ih hrest

/- --- fetch pipeline lemmas --- -/

theorem refreshSession_requests (env : SessionEnv) (now : Nat)
    (st : ClientState) :
    (refreshSession env now st).2.requests = st.requests := by
  unfold refreshSession
  rcases fetchNewSession env st.sessionFetches now with e | s <;> rfl

theorem getSession_requests (env : SessionEnv) (now : Nat)
    (st : ClientState) :
    (getSession env now st).2.requests = st.requests := by
  unfold getSession
  split
  · split
    · rfl
    · exact refreshSession_requests env now st
  · exact refreshSession_requests env now st

theorem fetchOne_state (up : ChartUpstream) (sym : String)
    (sess : Session) (st : ClientState) :
    (fetchOne up sym sess st).2 =
      { st with requests :=
          st.requests ++ [⟨sym, sess.cookie, sess.crumb⟩] } := by
  simp only [fetchOne]
  split
  · rfl
  · split <;> rfl

theorem fetchOne_requests (up : ChartUpstream) (sym : String)
    (sess : Session) (st : ClientState) :
    (fetchOne up sym sess st).2.requests =
      st.requests ++ [⟨sym, sess.cookie, sess.crumb⟩] := by
  rw [fetchOne_state]

theorem fetchSym_requests (env : SessionEnv) (up : ChartUpstream)
    (now : Nat) (sym : String) (sess : Session) (st : ClientState) :
    ∀ r ∈ (fetchSym env up now sym sess st).2.requests,
      r ∈ st.requests ∨ r.symbol = sym := by
  intro r hr
  unfold fetchSym at hr
  rcases h1 : fetchOne up sym sess st with ⟨res1, st1⟩
  have e1 : st1.requests = st.requests ++ [⟨sym, sess.cookie, sess.crumb⟩] := by
    have := fetchOne_requests up sym sess st
    rw [h1] at this
    exact this
  rw [h1] at hr
  have base : r ∈ st1.requests → r ∈ st.requests ∨ r.symbol = sym := by
    intro hmem
    rw [e1] at hmem
    rcases List.mem_append.mp hmem with h | h
    · exact Or.inl h
    · rcases List.mem_singleton.mp h with rfl
      exact Or.inr rfl
  rcases res1 with e | q
  · dsimp at hr
    by_cases ha : isAuthError e
    · rw [if_pos ha] at hr
      rcases h2 : getSession env now (invalidateSession st1) with ⟨res2, st2⟩
      have e2 : st2.requests = st1.requests := by
        have := getSession_requests env now (invalidateSession st1)
        rw [h2] at this
        exact this
      rw [h2] at hr
      rcases res2 with e2m | sess2
      · dsimp at hr
        rw [e2] at hr
        exact base hr
      · dsimp at hr
        rcases h3 : fetchOne up sym sess2 st2 with ⟨res3, st3⟩
        have e3 : st3.requests =
            st2.requests ++ [⟨sym, sess2.cookie, sess2.crumb⟩] := by
          have := fetchOne_requests up sym sess2 st2
          rw [h3] at this
          exact this
        rw [h3] at hr
        have hr3 : r ∈ st3.requests := by
          rcases res3 with e3m | q3 <;> exact hr
        rw [e3, e2] at hr3
        rcases List.mem_append.mp hr3 with h | h
        · exact base h
        · rcases List.mem_singleton.mp h with rfl
          exact Or.inr rfl
    · rw [if_neg ha] at hr
      exact base hr
  · exact base hr

theorem fetchLoop_requests (env : SessionEnv) (up : ChartUpstream)
    (now : Nat) :
    ∀ (syms : List String) (sess : Session)
      (acc : List (String × Quote)) (st : ClientState) (r : ChartRequest),
      r ∈ (fetchLoop env up now syms sess acc st).2.2.requests →
      r ∈ st.requests ∨ r.symbol ∈ syms := by
  intro syms
  induction syms with
  | nil =>
    intro sess acc st r hr
    exact Or.inl hr
  | cons sym rest ih =>
    intro sess acc st r hr
    rw [show fetchLoop env up now (sym :: rest) sess acc st =
        match fetchSym env up now sym sess st with
        | (Except.ok (q, sess2), st1) =>
          fetchLoop env up now rest sess2 (acc ++ [(sym, q)]) st1
        | (Except.error e, st1) => (acc, some e, st1) from rfl] at hr
    rcases h1 : fetchSym env up now sym sess st with ⟨res1, st1⟩
    rw [h1] at hr
    rcases res1 with e | qs
    · dsimp at hr
      rcases fetchSym_requests env up now sym sess st r
          (by rw [h1]; exact hr) with h | h
      · exact Or.inl h
      · exact Or.inr (by rw [h]; exact List.mem_cons_self _ _)
    · rcases qs with ⟨q, sess2⟩
      dsimp at hr
      rcases ih sess2 (acc ++ [(sym, q)]) st1 r hr with h | h
      · rcases fetchSym_requests env up now sym sess st r
            (by rw [h1]; exact h) with h2 | h2
        · exact Or.inl h2
        · exact Or.inr (by rw [h2]; exact List.mem_cons_self _ _)
      · exact Or.inr (List.mem_cons_of_mem _ h)

theorem fetchBatch_requests (env : SessionEnv) (up : ChartUpstream)
    (now : Nat) (symbols : List String) (st : ClientState)
    (r : ChartRequest)
    (hr : r ∈ (fetchBatch env up now symbols st).2.2.requests) :
    r ∈ st.requests ∨ r.symbol ∈ symbols := by
  unfold fetchBatch at hr
  rcases h1 : getSession env now st with ⟨res1, st1⟩
  have e1 : st1.requests = st.requests := by
    have := getSession_requests env now st
    rw [h1] at this
    exact this
  rw [h1] at hr
  rcases res1 with e | sess
  · dsimp at hr
    rw [e1] at hr
    exact Or.inl hr
  · dsimp at hr
    rcases fetchLoop_requests env up now symbols sess [] st1 r hr with h | h
    · exact Or.inl (e1 ▸ h)
    · exact Or.inr h

theorem GetQuotes_requests (env : SessionEnv) (up : ChartUpstream)
    (now : Nat) (symbols : List String) (cache : PriceCache)
    (st : ClientState) (r : ChartRequest)
    (hr : r ∈ (GetQuotes env up now symbols cache st).2.2.2.requests) :
    r ∈ st.requests ∨ r.symbol ∈ (GetMulti cache now symbols).2 := by
  unfold GetQuotes at hr
  by_cases h0 : symbols = []
  · rw [if_pos h0] at hr
    exact Or.inl hr
  · rw [if_neg h0] at hr
    by_cases hm : (GetMulti cache now symbols).2 = []
    · rw [if_pos hm] at hr
      exact Or.inl hr
    · rw [if_neg hm] at hr
      rcases hb : fetchBatch env up now (GetMulti cache now symbols).2 st
        with ⟨fetched, err, st1⟩
      rw [hb] at hr
      have hst1 : r ∈ st1.requests → r ∈ st.requests ∨
          r.symbol ∈ (GetMulti cache now symbols).2 := by
        intro hmem
        exact fetchBatch_requests env up now _ st r (by rw [hb]; exact hmem)
      rcases err with _ | e
      · exact hst1 hr
      · exact hst1 hr

theorem fetchBatch_nil (env : SessionEnv) (up : ChartUpstream)
    (now : Nat) (st : ClientState) :
    (fetchBatch env up now [] st).1 = [] := by
  unfold fetchBatch
  rcases getSession env now st with ⟨res, st1⟩
  rcases res with e | sess <;> rfl

theorem fetchLoop_acc (env : SessionEnv) (up : ChartUpstream)
    (now : Nat) :
    ∀ (syms : List String) (sess : Session)
      (acc : List (String × Quote)) (st : ClientState),
      ∃ more, (fetchLoop env up now syms sess acc st).1 = acc ++ more := by
  intro syms
  induction syms with
  | nil =>
    intro sess acc st
    exact ⟨[], by simp [fetchLoop]⟩
  | cons sym rest ih =>
    intro sess acc st
    rw [show fetchLoop env up now (sym :: rest) sess acc st =
        match fetchSym env up now sym sess st with
        | (Except.ok (q, sess2), st1) =>
          fetchLoop env up now rest sess2 (acc ++ [(sym, q)]) st1
        | (Except.error e, st1) => (acc, some e, st1) from rfl]
    rcases h1 : fetchSym env up now sym sess st with ⟨res1, st1⟩
    rcases res1 with e | qs
    · exact ⟨[], by simp⟩
    · rcases qs with ⟨q, sess2⟩
      rcases ih sess2 (acc ++ [(sym, q)]) st1 with ⟨more, hm⟩
      exact ⟨(sym, q) :: more, by simpa using hm⟩

theorem fetchLoop_ok_mem (env : SessionEnv) (up : ChartUpstream)
    (now : Nat) :
    ∀ (syms : List String) (sess : Session)
      (acc : List (String × Quote)) (st : ClientState),
      (fetchLoop env up now syms sess acc st).2.1 = none →
      ∀ s ∈ syms, ∃ q, (s, q) ∈ (fetchLoop env up now syms sess acc st).1 := by
  intro syms
  induction syms with
  | nil =>
    intro sess acc st _ s hs
    cases hs
  | cons sym rest ih =>
    intro sess acc st hok s hs
    rw [show fetchLoop env up now (sym :: rest) sess acc st =
        match fetchSym env up now sym sess st with
        | (Except.ok (q, sess2), st1) =>
          fetchLoop env up now rest sess2 (acc ++ [(sym, q)]) st1
        | (Except.error e, st1) => (acc, some e, st1) from rfl] at hok ⊢
    rcases h1 : fetchSym env up now sym sess st with ⟨res1, st1⟩
    rw [h1] at hok
    rcases res1 with e | qs
    · cases hok
    · rcases qs with ⟨q, sess2⟩
      dsimp at hok ⊢
      rcases List.mem_cons.mp hs with h | h
      · subst h
        rcases fetchLoop_acc env up now rest sess2 (acc ++ [(s, q)]) st1 with
          ⟨more, hm⟩
        exact ⟨q, by rw [hm]; simp⟩
      · exact ih sess2 (acc ++ [(sym, q)]) st1 hok s h

theorem fetchBatch_ok_mem (env : SessionEnv) (up : ChartUpstream)
    (now : Nat) (symbols : List String) (st : ClientState)
    (hok : (fetchBatch env up now symbols st).2.1 = none) :
    ∀ s ∈ symbols, ∃ q, (s, q) ∈ (fetchBatch env up now symbols st).1 := by
  intro s hs
  unfold fetchBatch at hok ⊢
  rcases h1 : getSession env now st with ⟨res1, st1⟩
  rw [h1] at hok
  rcases res1 with e | sess
  · cases hok
  · exact fetchLoop_ok_mem env up now symbols sess [] st1 hok s hs

/- --- claim theorems --- -/

/-- C6: for every chart response, the quote price is the regular-market
price when it is nonzero; when it is zero, the previous-close price is
used; when both are zero, the symbol fails with the no-price-data
error; and a returned quote never has a zero price. -/
theorem c6_price_fallback (meta : ChartMeta) (rest : List ChartMeta)
    (sym : String) :
    (meta.regularMarketPrice ≠ 0 →
      parseChartResponse (some ⟨meta :: rest, none⟩) sym =
        Except.ok ⟨meta.symbol, meta.regularMarketPrice, meta.currency⟩) ∧
    (meta.regularMarketPrice = 0 → meta.chartPreviousClose ≠ 0 →
      parseChartResponse (some ⟨meta :: rest, none⟩) sym =
        Except.ok ⟨meta.symbol, meta.chartPreviousClose, meta.currency⟩) ∧
    (meta.regularMarketPrice = 0 → meta.chartPreviousClose = 0 →
      parseChartResponse (some ⟨meta :: rest, none⟩) sym =
        Except.error (msgNoPriceData ++ sym)) ∧
    (∀ (body : Option ChartPayload) (q : Quote),
      parseChartResponse body sym = Except.ok q → q.price ≠ 0) := by
  refine ⟨?_, ?_, ?_, ?_⟩
  · intro h
    simp [parseChartResponse, h]
  · intro h0 h1
    simp [parseChartResponse, h0, h1]
  · intro h0 h1
    simp [parseChartResponse, h0, h1]
  · intro body q hq
    rcases body with _ | payload
    · simp [parseChartResponse] at hq
    · rcases payload with ⟨result, err⟩
      rcases err with _ | desc
      · rcases result with _ | ⟨m, ms⟩
        · simp [parseChartResponse] at hq
        · by_cases hz :
            (if m.regularMarketPrice = 0 then m.chartPreviousClose
              else m.regularMarketPrice) = 0
          · simp [parseChartResponse, hz] at hq
          · simp only [parseChartResponse, if_neg hz] at hq
            cases hq
            exact hz
      · simp [parseChartResponse] at hq

/-- C6 witness: the fallback to the previous close at a concrete
payload with a zero live price. -/
theorem c6_price_fallback_witness :
    parseChartResponse (some ⟨[⟨symA, usd, 0, 7⟩], none⟩) symA =
      Except.ok ⟨symA, 7, usd⟩ :=
  (c6_price_fallback ⟨symA, usd, 0, 7⟩ [] symA).2.1 (by decide) (by decide)

/-- C10: GetMulti partitions the requested symbols: each requested
symbol is either a key of the found map (carrying its fresh cached
quote) or a member of the missing list, and found and missing name only
requested symbols. -/
theorem c10_getmulti_partition (pc : PriceCache) (now : Nat)
    (symbols : List String) (s : String) :
    (s ∈ symbols →
      ((∃ q, (s, q) ∈ (GetMulti pc now symbols).1) ↔
        s ∉ (GetMulti pc now symbols).2)) ∧
    (∀ q, (s, q) ∈ (GetMulti pc now symbols).1 →
      s ∈ symbols ∧ freshAt pc now s = some q) ∧
    (s ∈ (GetMulti pc now symbols).2 →
      s ∈ symbols ∧ freshAt pc now s = none) := by
  refine ⟨?_, ?_, ?_⟩
  · intro hs
    constructor
    · rintro ⟨q, hq⟩ hmiss
      have h1 := (GetMulti_found_mem pc now symbols s q).mp hq
      have h2 := (GetMulti_missing_mem pc now symbols s).mp hmiss
      rw [h1.2] at h2
      cases h2.2
    · intro hmiss
      rcases hf : freshAt pc now s with _ | q
      · exact absurd
          ((GetMulti_missing_mem pc now symbols s).mpr ⟨hs, hf⟩) hmiss
      · exact ⟨q, (GetMulti_found_mem pc now symbols s q).mpr ⟨hs, hf⟩⟩
  · intro q hq
    exact (GetMulti_found_mem pc now symbols s q).mp hq
  · intro h
    exact (GetMulti_missing_mem pc now symbols s).mp h

/-- A one-entry cache fixture: AAPL cached at time 0, ttl 900. -/
def cacheW : PriceCache := ⟨[(symA, ⟨⟨symA, 10, usd⟩, 0⟩)], 900⟩

/-- C10 witness: the partition at a concrete cache holding a fresh
AAPL entry, read at time 100 with MSFT also requested. -/
theorem c10_getmulti_partition_witness :
    (∃ q, (symA, q) ∈ (GetMulti cacheW 100 [symA, symB]).1) ↔
      symA ∉ (GetMulti cacheW 100 [symA, symB]).2 :=
  (c10_getmulti_partition cacheW 100 [symA, symB] symA).1 (by decide)

/-- C3: the requests-per-second ceiling is not a recognized
configuration option: loadConfig reads only TELEGRAM_BOT_TOKEN,
DB_PATH, CACHE_TTL and NOTIFY_INTERVAL, so overriding
RATE_LIMIT_PER_SEC in the environment never changes the loaded
configuration (and no rate limiter exists in the fetch path). -/
theorem c3_rate_limit_env_ignored (parseDuration : String → Option Nat)
    (env : Env) (v : String) :
    loadConfig parseDuration
      (fun k => if k = keyRateLimit then v else env k) =
    loadConfig parseDuration env := by
  have h1 : keyCacheTTL ≠ keyRateLimit := by decide
  have h2 : keyNotifyInterval ≠ keyRateLimit := by decide
  have h3 : keyTelegramToken ≠ keyRateLimit := by decide
  have h4 : keyDBPath ≠ keyRateLimit := by decide
  simp [loadConfig, getEnv, h1, h2, h3, h4]

/-- C8: failed session acquisition leaves the cached session unchanged,
a valid unexpired session is returned with no network call (state
untouched), and fetchNewSession fails exactly on a missing cookie or an
empty or null crumb. -/
theorem c8_session_acquisition (env : SessionEnv) (now : Nat)
    (st : ClientState) :
    (∀ e, (getSession env now st).1 = Except.error e →
      (getSession env now st).2.session = st.session) ∧
    (∀ s, st.session = some s → now < s.expiresAt →
      getSession env now st = (Except.ok s, st)) ∧
    (∀ n, (∃ e, fetchNewSession env n now = Except.error e) ↔
      (extractCookies (env n).1 = emptyString ∨
        trimSpace (env n).2 = emptyString ∨
        trimSpace (env n).2 = nullLiteral)) := by
  obtain ⟨sopt, nf, reqs⟩ := st
  refine ⟨?_, ?_, ?_⟩
  · intro e he
    rcases sopt with _ | s
    · unfold getSession refreshSession at he ⊢
      rcases hf : fetchNewSession env nf now with e2 | s2
      · rfl
      · rw [hf] at he
        cases he
    · unfold getSession at he ⊢
      dsimp only at he ⊢
      by_cases h : now < s.expiresAt
      · rw [if_pos h] at he
        cases he
      · rw [if_neg h] at he ⊢
        unfold refreshSession at he ⊢
        rcases hf : fetchNewSession env nf now with e2 | s2
        · rfl
        · rw [hf] at he
          cases he
  · intro s hs h
    cases hs
    unfold getSession
    dsimp only
    rw [if_pos h]
  · intro n
    unfold fetchNewSession
    by_cases hc : extractCookies (env n).1 = emptyString
    · rw [if_pos hc]
      exact iff_of_true ⟨msgNoCookie, rfl⟩ (Or.inl hc)
    · rw [if_neg hc]
      by_cases hcr : trimSpace (env n).2 = emptyString ∨
          trimSpace (env n).2 = nullLiteral
      · rw [if_pos hcr]
        exact iff_of_true ⟨msgBadCrumb ++ trimSpace (env n).2, rfl⟩
          (Or.inr hcr)
      · rw [if_neg hcr]
        constructor
        · rintro ⟨e, he⟩
          cases he
        · intro h
          rcases h with h | h
          · exact absurd h hc
          · exact absurd h hcr

/-- A session environment that never returns a consent cookie. -/
def sessEnvNoCookie : SessionEnv := fun _ => (⟨[]⟩, emptyString)

/-- A client state caching an expired session. -/
def staleClientState : ClientState :=
  ⟨some ⟨cookieName, cookieName, 5⟩, 0, []⟩

/-- C8 witness: at time 10 the cached session (expiry 5) is expired and
the cookie-less refresh fails, yet the cached session is unchanged. -/
theorem c8_session_acquisition_witness :
    (getSession sessEnvNoCookie 10 staleClientState).2.session =
      staleClientState.session :=
  (c8_session_acquisition sessEnvNoCookie 10 staleClientState).1
    msgNoCookie (by decide)

/-- C2 counterexample: requesting AAPL and MSFT with AAPL succeeding
upstream and MSFT failing, the batch fetched AAPL successfully, yet
GetQuotes returns an empty map together with a non-nil error — it does
not return the successfully fetched subset, and it errors although that
subset is non-empty. -/
theorem c2_counterexample :
    (fetchBatch sessEnvSeq upOnlyA 0 [symA, symB] initialState).1 =
      [(symA, ⟨symA, 10, usd⟩)] ∧
    (GetQuotes sessEnvSeq upOnlyA 0 [symA, symB] emptyCache
        initialState).1 = [] ∧
    (GetQuotes sessEnvSeq upOnlyA 0 [symA, symB] emptyCache
        initialState).2.1.isSome = true := by decide

/-- C2 amended: GetQuotes returns a quote for every requested symbol
exactly when it returns a nil error; on any fetch failure it returns
only the fresh-cache subset (quotes already fetched in the call are
discarded and the cache is untouched) together with a non-nil
batch-level error, even when some symbols fetched successfully. -/
theorem c2_amended (env : SessionEnv) (up : ChartUpstream) (now : Nat)
    (symbols : List String) (cache : PriceCache) (st : ClientState) :
    ((GetQuotes env up now symbols cache st).2.1 = none →
      ∀ s ∈ symbols,
        (lookupQuote (GetQuotes env up now symbols cache st).1 s).isSome
          = true) ∧
    (∀ e, (GetQuotes env up now symbols cache st).2.1 = some e →
      (GetQuotes env up now symbols cache st).1 =
        (GetMulti cache now symbols).1 ∧
      (GetQuotes env up now symbols cache st).2.2.1 = cache) := by
  unfold GetQuotes
  by_cases h0 : symbols = []
  · rw [if_pos h0]
    subst h0
    refine ⟨?_, ?_⟩
    · intro _ s hs
      cases hs
    · intro e he
      cases he
  · rw [if_neg h0]
    by_cases hm : (GetMulti cache now symbols).2 = []
    · rw [if_pos hm]
      refine ⟨?_, ?_⟩
      · intro _ s hs
        rcases hf : freshAt cache now s with _ | q
        · exfalso
          have hmem : s ∈ (GetMulti cache now symbols).2 :=
            (GetMulti_missing_mem cache now symbols s).mpr ⟨hs, hf⟩
          rw [hm] at hmem
          cases hmem
        · rw [GetMulti_found_lookup cache now symbols s q hf hs]
          rfl
      · intro e he
        cases he
    · rw [if_neg hm]
      rcases hb : fetchBatch env up now (GetMulti cache now symbols).2 st
        with ⟨fetched, err, st1⟩
      rcases err with _ | e
      · refine ⟨?_, ?_⟩
        · intro _ s hs
          rcases hf : freshAt cache now s with _ | q
          · have hmem : s ∈ (GetMulti cache now symbols).2 :=
              (GetMulti_missing_mem cache now symbols s).mpr ⟨hs, hf⟩
            have hq := fetchBatch_ok_mem env up now
              (GetMulti cache now symbols).2 st (by rw [hb]) s hmem
            rw [hb] at hq
            rcases hq with ⟨q, hq⟩
            exact lookupQuote_append_isSome _ _ s
              (Or.inr (lookupQuote_isSome_of_mem _ s q hq))
          · have := GetMulti_found_lookup cache now symbols s q hf hs
            exact lookupQuote_append_isSome _ _ s
              (Or.inl (by rw [this]; rfl))
        · intro e he
          cases he
      · refine ⟨?_, ?_⟩
        · intro hn
          cases hn
        · intro e2 _
          exact ⟨rfl, rfl⟩

/-- C2 amended witness: with a warm MSFT entry and AAPL fetched
upstream, the nil-error call serves both requested symbols. -/
theorem c2_amended_witness :
    (lookupQuote (GetQuotes sessEnvSeq upOnlyA 0 [symA] emptyCache
      initialState).1 symA).isSome = true :=
  (c2_amended sessEnvSeq upOnlyA 0 [symA] emptyCache initialState).1
    (by decide) symA (by decide)

/-- C4 counterexample: requesting TSLA and NVDA with TSLA succeeding
and NVDA failing, the TSLA quote was fetched from upstream during the
call, yet the cache still has no TSLA entry when GetQuotes returns. -/
theorem c4_counterexample :
    (fetchBatch sessEnvSeq upOnlyC 0 [symC, symD] initialState).1 =
      [(symC, ⟨symC, 20, usd⟩)] ∧
    cacheLookup (GetQuotes sessEnvSeq upOnlyC 0 [symC, symD] emptyCache
        initialState).2.2.1.items symC = none := by decide

/-- C4 amended: quotes fetched upstream are written into the cache
before GetQuotes returns only when the whole batch succeeded (each
fetched symbol then has an entry stamped now); whenever GetQuotes
returns an error, the cache is left exactly as it was and the fetched
quotes are dropped. -/
theorem c4_amended (env : SessionEnv) (up : ChartUpstream) (now : Nat)
    (symbols : List String) (cache : PriceCache) (st : ClientState) :
    ((GetQuotes env up now symbols cache st).2.1 = none →
      ∀ s q,
        (s, q) ∈ (fetchBatch env up now (GetMulti cache now symbols).2
          st).1 →
        ∃ q2,
          (s, q2) ∈ (fetchBatch env up now (GetMulti cache now symbols).2
            st).1 ∧
          cacheLookup
            (GetQuotes env up now symbols cache st).2.2.1.items s =
              some ⟨q2, now⟩) ∧
    (∀ e, (GetQuotes env up now symbols cache st).2.1 = some e →
      (GetQuotes env up now symbols cache st).2.2.1 = cache) := by
  unfold GetQuotes
  by_cases h0 : symbols = []
  · rw [if_pos h0]
    subst h0
    refine ⟨?_, ?_⟩
    · intro _ s q hq
      rw [show (GetMulti cache now ([] : List String)).2 = [] from rfl,
        fetchBatch_nil env up now st] at hq
      cases hq
    · intro e he
      cases he
  · rw [if_neg h0]
    by_cases hm : (GetMulti cache now symbols).2 = []
    · rw [if_pos hm]
      refine ⟨?_, ?_⟩
      · intro _ s q hq
        rw [hm, fetchBatch_nil env up now st] at hq
        cases hq
      · intro e he
        cases he
    · rw [if_neg hm]
      rcases hb : fetchBatch env up now (GetMulti cache now symbols).2 st
        with ⟨fetched, err, st1⟩
      rcases err with _ | e
      · refine ⟨?_, ?_⟩
        · intro _ s q hq
          rcases SetMulti_lookup_mem cache now fetched s q hq with
            ⟨q2, hq2, hl⟩
          exact ⟨q2, hq2, hl⟩
        · intro e he
          cases he
      · refine ⟨?_, ?_⟩
        · intro hn
          cases hn
        · intro e2 _
          rfl

/-- C4 amended witness: when every symbol of the batch succeeds, the
fetched AAPL quote is cached, stamped with the call time. -/
theorem c4_amended_witness :
    ∃ q2,
      (symA, q2) ∈ (fetchBatch sessEnvSeq upOnlyA 0
        (GetMulti emptyCache 0 [symA]).2 initialState).1 ∧
      cacheLookup (GetQuotes sessEnvSeq upOnlyA 0 [symA] emptyCache
          initialState).2.2.1.items symA = some ⟨q2, 0⟩ :=
  (c4_amended sessEnvSeq upOnlyA 0 [symA] emptyCache initialState).1
    (by decide) symA ⟨symA, 10, usd⟩ (by decide)

/-- C7: a cache entry for X written at time T is served with its cached
quote by every GetQuotes call issued while now < T + ttl, and no
request for X goes upstream; a stale entry (ttl < now - T) is treated
as absent on reads (X lands in the missing list) but is not deleted:
the cache still holds an entry for X after the call. -/
theorem c7_cache_freshness (env : SessionEnv) (up : ChartUpstream)
    (now : Nat) (symbols : List String) (cache : PriceCache)
    (st : ClientState) (X : String) (q : Quote) (T : Nat)
    (hx : cacheLookup cache.items X = some ⟨q, T⟩) :
    (now < T + cache.ttl → X ∈ symbols →
      lookupQuote (GetQuotes env up now symbols cache st).1 X = some q ∧
      (∀ r ∈ (GetQuotes env up now symbols cache st).2.2.2.requests,
        r ∈ st.requests ∨ r.symbol ≠ X)) ∧
    (cache.ttl < now - T →
      (X ∈ symbols → X ∈ (GetMulti cache now symbols).2) ∧
      (cacheLookup
        (GetQuotes env up now symbols cache st).2.2.1.items X).isSome =
        true) := by
  constructor
  · intro hfreshtime hX
    have hfresh : freshAt cache now X = some q := by
      unfold freshAt
      rw [hx]
      dsimp only
      rw [if_pos (by omega)]
    have hnotmiss : X ∉ (GetMulti cache now symbols).2 := by
      intro hmem
      have := (GetMulti_missing_mem cache now symbols X).mp hmem
      rw [hfresh] at this
      cases this.2
    constructor
    · unfold GetQuotes
      rw [if_neg (by intro h0; rw [h0] at hX; cases hX)]
      by_cases hm : (GetMulti cache now symbols).2 = []
      · rw [if_pos hm]
        exact GetMulti_found_lookup cache now symbols X q hfresh hX
      · rw [if_neg hm]
        rcases hb : fetchBatch env up now (GetMulti cache now symbols).2 st
          with ⟨fetched, err, st1⟩
        have hfound := GetMulti_found_lookup cache now symbols X q hfresh hX
        rcases err with _ | e
        · rw [lookupQuote_append_left _ _ X (by rw [hfound]; rfl)]
          exact hfound
        · exact hfound
    · intro r hr
      rcases GetQuotes_requests env up now symbols cache st r hr with h | h
      · exact Or.inl h
      · refine Or.inr ?_
        intro hsym
        rw [hsym] at h
        exact hnotmiss h
  · intro hstale
    have hstaleAt : freshAt cache now X = none := by
      unfold freshAt
      rw [hx]
      dsimp only
      rw [if_neg (by omega)]
    constructor
    · intro hX
      exact (GetMulti_missing_mem cache now symbols X).mpr ⟨hX, hstaleAt⟩
    · unfold GetQuotes
      by_cases h0 : symbols = []
      · rw [if_pos h0]
        rw [hx]
        rfl
      · rw [if_neg h0]
        by_cases hm : (GetMulti cache now symbols).2 = []
        · rw [if_pos hm]
          rw [hx]
          rfl
        · rw [if_neg hm]
          rcases hb : fetchBatch env up now
            (GetMulti cache now symbols).2 st with ⟨fetched, err, st1⟩
          rcases err with _ | e
          · exact SetMulti_isSome cache now fetched X (by rw [hx]; rfl)
          · rw [hx]
            rfl

/-- C7 witness: at time 100, the AAPL entry written at time 0 with ttl
900 is served from the cache by GetQuotes, with no new request. -/
theorem c7_cache_freshness_witness :
    lookupQuote (GetQuotes sessEnvSeq upAllOk 100 [symA] cacheW
      initialState).1 symA = some ⟨symA, 10, usd⟩ :=
  ((c7_cache_freshness sessEnvSeq upAllOk 100 [symA] cacheW initialState
    symA ⟨symA, 10, usd⟩ 0 (by decide)).1 (by decide) (by decide)).1

/-- Anatomy of the auth-retry path of the fetchBatch loop body: when
the first attempt is an authorization failure and the refresh mints s2,
fetchSym reduces to the single retry against s2 from the state that
logged the first request and counted one session fetch. -/
theorem fetchSym_auth_retry (env : SessionEnv) (up : ChartUpstream)
    (now : Nat) (sym : String) (sess : Session) (st : ClientState)
    (s2 : Session)
    (h1 : (up ⟨sym, sess.cookie, sess.crumb⟩).status = 401 ∨
      (up ⟨sym, sess.cookie, sess.crumb⟩).status = 403)
    (h2 : fetchNewSession env st.sessionFetches now = Except.ok s2) :
    fetchSym env up now sym sess st =
      (match fetchOne up sym s2
        ⟨some s2, st.sessionFetches + 1,
          st.requests ++ [⟨sym, sess.cookie, sess.crumb⟩]⟩ with
       | (Except.ok q, st3) => (Except.ok (q, s2), st3)
       | (Except.error e3, st3) =>
         (Except.error (msgFetch ++ sym ++ msgColon ++ e3), st3)) := by
  have e1 : fetchOne up sym sess st =
      (Except.error
        (msgAuthError ++ toString (up ⟨sym, sess.cookie, sess.crumb⟩).status),
       { st with requests :=
          st.requests ++ [⟨sym, sess.cookie, sess.crumb⟩] }) := by
    rcases h1 with h | h <;> simp [fetchOne, h]
  have ha : isAuthError
      (msgAuthError ++ toString (up ⟨sym, sess.cookie, sess.crumb⟩).status)
        = true := by
    rcases h1 with h | h <;> rw [h] <;> decide
  unfold fetchSym
  rw [e1]
  dsimp only
  rw [if_pos ha]
  unfold getSession invalidateSession refreshSession
  dsimp only
  rw [h2]

/-- C5 counterexample: with GOOG failing 401 under every session and
AMZN healthy, fetchBatch on the batch GOOG, AMZN retries GOOG once
with the refreshed session, then aborts: no request for AMZN is ever
issued, no quote is returned, and the batch carries an error — the
second authorization failure is not contained to its own symbol. -/
theorem c5_counterexample :
    ((fetchBatch sessEnvSeq upAuthFail 0 [symX, symY]
        initialState).2.2.requests.filter
          (fun r => r.symbol = symY)) = [] ∧
    (fetchBatch sessEnvSeq upAuthFail 0 [symX, symY] initialState).1 =
      [] ∧
    (fetchBatch sessEnvSeq upAuthFail 0 [symX, symY]
        initialState).2.1.isSome = true := by decide

/-- C5 amended: on an authorization failure (401/403) for symbol X, the
session is invalidated and refreshed exactly once (one fetchNewSession
call, when the refresh succeeds) and X is retried exactly once, the
retried request carrying the new session cookie and crumb; but a second
authorization failure aborts the whole batch: the loop returns an error
and the remaining symbols are not attempted. -/
theorem c5_amended (env : SessionEnv) (up : ChartUpstream) (now : Nat)
    (sym : String) (sess : Session) (st : ClientState) (s2 : Session)
    (h1 : (up ⟨sym, sess.cookie, sess.crumb⟩).status = 401 ∨
      (up ⟨sym, sess.cookie, sess.crumb⟩).status = 403)
    (h2 : fetchNewSession env st.sessionFetches now = Except.ok s2) :
    (fetchSym env up now sym sess st).2.requests =
      st.requests ++ [⟨sym, sess.cookie, sess.crumb⟩,
        ⟨sym, s2.cookie, s2.crumb⟩] ∧
    (fetchSym env up now sym sess st).2.sessionFetches =
      st.sessionFetches + 1 ∧
    (((up ⟨sym, s2.cookie, s2.crumb⟩).status = 401 ∨
        (up ⟨sym, s2.cookie, s2.crumb⟩).status = 403) →
      ∀ rest acc,
        ∃ e, fetchLoop env up now (sym :: rest) sess acc st =
          (acc, some e, (fetchSym env up now sym sess st).2)) := by
  rw [fetchSym_auth_retry env up now sym sess st s2 h1 h2]
  rcases hf2 : fetchOne up sym s2
      ⟨some s2, st.sessionFetches + 1,
        st.requests ++ [⟨sym, sess.cookie, sess.crumb⟩]⟩ with ⟨res3, st3⟩
  rw [hf2]
  have e3 : st3 = ⟨some s2, st.sessionFetches + 1,
      st.requests ++ [⟨sym, sess.cookie, sess.crumb⟩,
        ⟨sym, s2.cookie, s2.crumb⟩]⟩ := by
    have h5 := fetchOne_state up sym s2
      ⟨some s2, st.sessionFetches + 1,
        st.requests ++ [⟨sym, sess.cookie, sess.crumb⟩]⟩
    rw [hf2] at h5
    simpa using h5
  refine ⟨?_, ?_, ?_⟩
  · rcases res3 with e | q <;> dsimp only <;> rw [e3]
  · rcases res3 with e | q <;> dsimp only <;> rw [e3]
  · intro hauth2 rest acc
    have e4 : res3 = Except.error
        (msgAuthError ++
          toString (up ⟨sym, s2.cookie, s2.crumb⟩).status) := by
      have h5 : fetchOne up sym s2
          ⟨some s2, st.sessionFetches + 1,
            st.requests ++ [⟨sym, sess.cookie, sess.crumb⟩]⟩ =
          (Except.error (msgAuthError ++
            toString (up ⟨sym, s2.cookie, s2.crumb⟩).status),
           ⟨some s2, st.sessionFetches + 1,
            st.requests ++ [⟨sym, sess.cookie, sess.crumb⟩,
              ⟨sym, s2.cookie, s2.crumb⟩]⟩) := by
        rcases hauth2 with h | h <;> simp [fetchOne, h]
      rw [hf2] at h5
      exact congrArg Prod.fst h5
    rw [show fetchLoop env up now (sym :: rest) sess acc st =
        match fetchSym env up now sym sess st with
        | (Except.ok (q, sess2), st1) =>
          fetchLoop env up now rest sess2 (acc ++ [(sym, q)]) st1
        | (Except.error e, st1) => (acc, some e, st1) from rfl,
      fetchSym_auth_retry env up now sym sess st s2 h1 h2, hf2, e4]
    exact ⟨_, rfl⟩

/-- A fixed old session used by the C5 witness. -/
def oldSession : Session := ⟨cookieName, cookieName, 1800⟩

/-- C5 amended witness: with GOOG failing 401 under every session, the
loop body performs exactly one session refresh (counter 0 to 1) before
the retry. -/
theorem c5_amended_witness :
    (fetchSym sessEnvSeq upAuthFail 0 symX oldSession
      initialState).2.sessionFetches = initialState.sessionFetches + 1 :=
  (c5_amended sessEnvSeq upAuthFail 0 symX oldSession initialState
    ⟨cookieName ++ cookieEq ++ toString 0, toString 0, sessionTTL⟩
    (by decide) (by decide)).2.1

/-- Every event the fanout loop emits is a notification for one of the
users it was given. -/
theorem fanout_events (env : SessionEnv) (up : ChartUpstream)
    (now : Nat) (db : HoldingsDB) :
    ∀ (users : List Int) (cache : PriceCache) (st : ClientState)
      (e : SchedEvent),
      e ∈ (fanout env up now db users cache st).1 →
      ∃ u, e = SchedEvent.notify u ∧ u ∈ users := by
  intro users
  induction users with
  | nil =>
    intro cache st e he
    cases he
  | cons u rest ih =>
    intro cache st e he
    simp only [fanout] at he
    rcases hc : ComputeBalance env up now db cache st u with ⟨res, c1, s1⟩
    rw [hc] at he
    rcases res with e2 | ro
    · rcases ih c1 s1 e he with ⟨v, hv, hvmem⟩
      exact ⟨v, hv, List.mem_cons_of_mem _ hvmem⟩
    · rcases ro with _ | r
      · rcases ih c1 s1 e he with ⟨v, hv, hvmem⟩
        exact ⟨v, hv, List.mem_cons_of_mem _ hvmem⟩
      · dsimp only at he
        by_cases hr : r.holdings = []
        · rw [if_pos hr] at he
          rcases ih c1 s1 e he with ⟨v, hv, hvmem⟩
          exact ⟨v, hv, List.mem_cons_of_mem _ hvmem⟩
        · rw [if_neg hr] at he
          rcases List.mem_cons.mp he with h | h
          · exact ⟨u, h, List.mem_cons_self _ _⟩
          · rcases ih c1 s1 e h with ⟨v, hv, hvmem⟩
            exact ⟨v, hv, List.mem_cons_of_mem _ hvmem⟩

/-- C9: one scheduler tick emits the prewarm event (carrying whether
the prewarm fetch failed) strictly before any notification; every
later event notifies a consumer that holds at least one symbol; and the
fanout loop treats each consumer independently: the events of the tail
are produced whatever the outcome for the consumer at the head, which
is notified exactly when its balance computes to a non-empty report. -/
theorem c9_scheduler_tick (env : SessionEnv) (up : ChartUpstream)
    (now : Nat) (db : HoldingsDB) (cache : PriceCache) (st : ClientState)
    (h : GetDistinctSymbols db ≠ []) :
    (∃ b evs, (notifyAll env up now db cache st).1 =
        SchedEvent.prewarm (GetDistinctSymbols db) b :: evs ∧
      ∀ e ∈ evs, ∃ u, e = SchedEvent.notify u ∧
        u ∈ GetAllActiveUsers db) ∧
    (∀ (u : Int) (rest : List Int) (c : PriceCache) (s : ClientState),
      (fanout env up now db (u :: rest) c s).1 =
        match ComputeBalance env up now db c s u with
        | (Except.ok (some r), c1, s1) =>
          if r.holdings = [] then (fanout env up now db rest c1 s1).1
          else SchedEvent.notify u :: (fanout env up now db rest c1 s1).1
        | (Except.ok none, c1, s1) => (fanout env up now db rest c1 s1).1
        | (Except.error _, c1, s1) => (fanout env up now db rest c1 s1).1)
      := by
  constructor
  · unfold notifyAll
    rw [if_neg h]
    rcases hg : GetQuotes env up now (GetDistinctSymbols db) cache st
      with ⟨quotes, err, cache1, st1⟩
    refine ⟨err.isSome, (fanout env up now db (GetAllActiveUsers db)
      cache1 st1).1, rfl, ?_⟩
    intro e he
    exact fanout_events env up now db (GetAllActiveUsers db) cache1 st1
      e he
  · intro u rest c s
    simp only [fanout]
    rcases ComputeBalance env up now db c s u with ⟨res, c1, s1⟩
    rcases res with e2 | ro
    · rfl
    · rcases ro with _ | r
      · rfl
      · dsimp only
        split <;> rfl

/-- A holdings table: consumer 1 holds AAPL, consumer 2 holds AAPL and
TSLA, and nobody else holds anything. -/
def dbW : HoldingsDB :=
  [⟨1, symA, symA, 1⟩, ⟨2, symA, symA, 2⟩, ⟨2, symC, symC, 1⟩]

/-- C9 witness: the tick over the concrete holdings table starts with
the prewarm event and then only notifies holders. -/
theorem c9_scheduler_tick_witness :
    ∃ b evs,
      (notifyAll sessEnvSeq upAllOk 0 dbW emptyCache initialState).1 =
        SchedEvent.prewarm (GetDistinctSymbols dbW) b :: evs ∧
      ∀ e ∈ evs, ∃ u, e = SchedEvent.notify u ∧
        u ∈ GetAllActiveUsers dbW :=
  (c9_scheduler_tick sessEnvSeq upAllOk 0 dbW emptyCache initialState
    (by decide)).1

/-- C1: two concurrent GetQuotes callers for the same uncached symbol
GOOG, interleaved so that both cache reads precede both fetches (a
schedule the lock structure permits), together issue two upstream
requests for GOOG — there is no in-flight deduplication — even though
both callers finish with the same successful result. -/
theorem c1_no_inflight_dedup :
    ((runSchedule sessEnvSeq upAllOk 0 [false, true, false, true]
        ⟨emptyCache, initialState⟩
        (CallerPhase.start [symX], CallerPhase.start [symX])
      ).1.client.requests.filter (fun r => r.symbol = symX)).length = 2 ∧
    (runSchedule sessEnvSeq upAllOk 0 [false, true, false, true]
        ⟨emptyCache, initialState⟩
        (CallerPhase.start [symX], CallerPhase.start [symX])
      ).2.1 = CallerPhase.finished [(symX, ⟨symX, 10, usd⟩)] none ∧
    (runSchedule sessEnvSeq upAllOk 0 [false, true, false, true]
        ⟨emptyCache, initialState⟩
        (CallerPhase.start [symX], CallerPhase.start [symX])
      ).2.2 = CallerPhase.finished [(symX, ⟨symX, 10, usd⟩)] none := by
  decide

end StocksHero
